import Mathlib

/-!
A verification development for `apyb.py`, a PLY-based compiler from a
markdown-flavoured, indentation-sensitive schema language to a refract
document tree.  The pipeline is: scanner (`t_*` rules) → token tracking and
indentation normalisation (`track_tokens_filter`, `indentation_filter`,
`filter`) → grammar builder (`p_*` semantic actions driven by a yacc grammar).

The embedding mirrors the Python source:
* Python's dynamically typed values (strings, lists, `None`, refract elements,
  members, metadata, attribute dictionaries) are embedded as the inductive
  type `Py`;
* each PLY lexer rule `t_X` becomes a matcher returning how many characters
  the rule's regular expression consumes at the current position (PLY builds
  one master regular expression from the rules in definition order and takes
  the first alternative that matches, which is what `masterMatch` does);
* the token-tracking filter and the lexer's keep/discard decisions are fused
  into one sequential pass `lexAux` (the Python generators are pull-based and
  update `lexer.at_line_start` after each forwarded token, before the next
  raw token is scanned, so the fused pass computes the same stream);
* `indentation_filter` is the INDENT/DEDENT generator, written with its
  levels stack explicit so stack invariants can be stated;
* each yacc action `p_X` becomes a function on the list of semantic values of
  the production's right-hand side (`pidx ps i` is Python's `p[i]`, and
  `ps.length + 1` is Python's `len(p)`); a committed recursive-descent
  reading of the grammar assembles them, failing with the stream at the
  offending token, and `yacc_parse` runs the engine's error handling on top:
  `p_error` raises nothing, so each syntax error is followed by panic-mode
  resynchronization — drop the parsed context and the offending token,
  resume from the start state — and the parse returns `None` only when the
  whole input is discarded.
-/

set_option autoImplicit false

namespace Apyb

/-- A universe of the Python values the program manipulates: `None`, strings,
lists, refract elements (element name, meta, attributes, content, plus the
dynamically attached `apyb` attribute set by `p_type_def`), refract members,
refract metadata, and refract attribute dictionaries (of which the program
only ever uses the `typeAttributes` key, `pnone` meaning the key is absent). -/
inductive Py where
  | pnone : Py
  | pstr : String → Py
  | plist : List Py → Py
  | pelem : (element : String) → (meta : Py) → (attributes : Py) →
      (content : Py) → (apyb : Py) → Py
  | pmember : (key : Py) → (value : Py) → (meta : Py) → (attributes : Py) → Py
  | pmeta : (id : Py) → (description : Py) → Py
  | pattrs : (typeAttributes : Py) → Py

instance : Inhabited Py := ⟨Py.pnone⟩

/-- The string payload of a Python value (token values are strings). -/
def Py.getStr : Py → String
  | .pstr s => s
  | _ => ""

/-- The list payload of a Python value. -/
def Py.getList : Py → List Py
  | .plist l => l
  | _ => []

/-- The refract element name of a Python value. -/
def Py.elementName : Py → String
  | .pelem n _ _ _ _ => n
  | _ => ""

/-- `refract.Metadata(id=..., description=...)`. -/
def refract.Metadata (id description : Py) : Py := .pmeta id description

/-- `refract.Attributes()`: a fresh, empty attribute dictionary. -/
def refract.Attributes : Py := .pattrs .pnone

/-- The default metadata a refract element is created with. -/
def defaultMeta : Py := refract.Metadata .pnone .pnone

/-- `refract.String(content=...)` (pass `Py.pnone` for `refract.String()`). -/
def refract.String (content : Py) : Py :=
  .pelem "string" defaultMeta refract.Attributes content .pnone

/-- `refract.Number()`. -/
def refract.Number : Py :=
  .pelem "number" defaultMeta refract.Attributes .pnone .pnone

/-- `refract.Boolean()`. -/
def refract.Boolean : Py :=
  .pelem "boolean" defaultMeta refract.Attributes .pnone .pnone

/-- `refract.Object()` with no arguments, as built by `p_type_def`. -/
def refract.ObjectE : Py :=
  .pelem "object" defaultMeta refract.Attributes .pnone .pnone

/-- `refract.Object(content=..., meta=..., attributes=...)`. -/
def refract.Object (content meta attributes : Py) : Py :=
  .pelem "object" meta attributes content .pnone

/-- `refract.Array(content=...)` (pass `Py.pnone` for `refract.Array()`). -/
def refract.Array (content : Py) : Py :=
  .pelem "array" defaultMeta refract.Attributes content .pnone

/-- `refract.Element(element=name)` for a generic (named) element. -/
def refract.Element (element : Py) : Py :=
  .pelem element.getStr defaultMeta refract.Attributes .pnone .pnone

/-- `refract.Member(key=..., value=..., meta=..., attributes=...)`
(pass `Py.pnone` for an absent `meta`). -/
def refract.Member (key value meta attributes : Py) : Py :=
  .pmember key value meta attributes

/-- The dynamically attached `apyb` attribute of an element
(`p3.__dict__['apyb']`); `pnone` when the attribute was never set. -/
def getApyb : Py → Py
  | .pelem _ _ _ _ a => a
  | _ => .pnone

/-- `e.__dict__['apyb'] = v` on a refract element. -/
def setApyb (e v : Py) : Py :=
  match e with
  | .pelem n m a c _ => .pelem n m a c v
  | x => x

/-- `attributes['typeAttributes'] = v` on an attribute dictionary. -/
def setTypeAttributes (attributes v : Py) : Py :=
  match attributes with
  | .pattrs _ => .pattrs v
  | a => a

/-- Models the guarded copy
`try: attributes['typeAttributes'] = p3.__dict__['apyb']
except (AttributeError, KeyError): pass`:
a non-element `p3` (a plain string) raises AttributeError and an element that
never got the `apyb` attribute raises KeyError, both leaving `attributes`
unchanged. -/
def copyTypeAttrs (attributes p3 : Py) : Py :=
  match getApyb p3 with
  | .pnone => attributes
  | a => setTypeAttributes attributes a

/-- `meta.description = d` on a metadata record. -/
def setDescription (meta d : Py) : Py :=
  match meta with
  | .pmeta i _ => .pmeta i d
  | m => m

/-- `e.meta = m` on a refract element. -/
def setMeta (e m : Py) : Py :=
  match e with
  | .pelem n _ a c ap => .pelem n m a c ap
  | x => x

/-- `e.attributes = a` on a refract element. -/
def setAttributes (e a : Py) : Py :=
  match e with
  | .pelem n m _ c ap => .pelem n m a c ap
  | x => x

/-- Python's whitespace class `\s` (over the ASCII range the scanner deals
in): space, tab, newline, carriage return, form feed, vertical tab. -/
def isPyspace (c : Char) : Bool :=
  c = ' ' || c = '\t' || c = '\n' || c = '\r' || c = '\x0c' || c = '\x0b'

/-- Python's `str.strip()` on the strings this program strips (token texts,
which contain no characters outside `\s` that `strip` would treat
differently). -/
def pyStrip (s : String) : String :=
  String.mk (((s.toList.dropWhile isPyspace).reverse.dropWhile isPyspace).reverse)

/-! ## Scanner

Each `t_X` matcher returns the number of characters the rule's regular
expression consumes at the head of the input, or `none` when the rule does
not match there.  PLY compiles the rules into one alternation in definition
order and Python's `re` takes the first alternative that matches, so
`masterMatch` tries the rules in the order they appear in the source. -/

/-- Length of the maximal prefix satisfying `p`. -/
def countWhile (p : Char → Bool) : List Char → Nat
  | [] => 0
  | c :: cs => if p c then countWhile p cs + 1 else 0

/-- Match one or more characters satisfying `p` (a `[...]+` class). -/
def matchPlus (p : Char → Bool) (cs : List Char) : Option Nat :=
  let n := countWhile p cs
  if n = 0 then none else some n

/-- Match a literal string. -/
def matchLit (lit : List Char) (cs : List Char) : Option Nat :=
  if lit.isPrefixOf cs then some lit.length else none

/-- `t_HEADER`: `\#+`. -/
def t_HEADER (cs : List Char) : Option Nat :=
  matchPlus (fun c => c = '#') cs

/-- `t_WS`: `[ \t]+` (the keep/discard decision is made by the lexer loop). -/
def t_WS (cs : List Char) : Option Nat :=
  matchPlus (fun c => c = ' ' || c = '\t') cs

/-- `t_newline`: `\n+` (the rule renames the token to NEWLINE and bumps the
line number; both effects live in the lexer loop). -/
def t_newline (cs : List Char) : Option Nat :=
  matchPlus (fun c => c = '\n') cs

/-- The mantissa part `(\d+(\.\d*)?|\.\d+)` of `t_NUM` (with `\d` read as an
ASCII digit). -/
def numMantissa (cs : List Char) : Option Nat :=
  let d := countWhile Char.isDigit cs
  if d ≠ 0 then
    match cs.drop d with
    | '.' :: rest => some (d + 1 + countWhile Char.isDigit rest)
    | _ => some d
  else
    match cs with
    | '.' :: rest =>
      let d2 := countWhile Char.isDigit rest
      if d2 = 0 then none else some (1 + d2)
    | _ => none

/-- The optional exponent `([eE][-+]?\d+)?` of `t_NUM` — reading the
master expression as compiled with `re.VERBOSE` (which the classic PLY
releases force on it), so the stray space in the source pattern is
ignored; under a PLY that honoured the lexer's `reflags=0` literally the
exponent would instead require that space.  Returns the number of
characters consumed (0 when the group does not apply); either reading
agrees on every exponent-free number. -/
def numExponent (cs : List Char) : Nat :=
  match cs with
  | c :: rest =>
    if c = 'e' || c = 'E' then
      let sgn : Nat :=
        match rest with
        | k :: _ => if k = '-' || k = '+' then 1 else 0
        | [] => 0
      let d := countWhile Char.isDigit (rest.drop sgn)
      if d = 0 then 0 else 1 + sgn + d
    else 0
  | [] => 0

/-- `t_NUM`: `(\d+(\.\d*)?|\.\d+)([eE][-+]?\d+)?`. -/
def t_NUM (cs : List Char) : Option Nat :=
  (numMantissa cs).map (fun m => m + numExponent (cs.drop m))

/-- `t_FIXED_TYPE`: `fixed-type`. -/
def t_FIXED_TYPE (cs : List Char) : Option Nat :=
  matchLit "fixed-type".toList cs

/-- `t_FIXED`: `fixed`. -/
def t_FIXED (cs : List Char) : Option Nat :=
  matchLit "fixed".toList cs

/-- `t_MEMBERS`: `[M|m]ember[s]` (the class is the three characters
`M`, `|`, `m`; the final `[s]` is a mandatory `s`). -/
def t_MEMBERS : List Char → Option Nat
  | c :: cs =>
    if (c = 'M' || c = '|' || c = 'm') && "embers".toList.isPrefixOf cs then
      some 7
    else none
  | [] => none

/-- `t_PROPERTIES`: `[P|p]roperties`. -/
def t_PROPERTIES : List Char → Option Nat
  | c :: cs =>
    if (c = 'P' || c = '|' || c = 'p') && "roperties".toList.isPrefixOf cs then
      some 10
    else none
  | [] => none

/-- `t_STRING`: `string`. -/
def t_STRING (cs : List Char) : Option Nat :=
  matchLit "string".toList cs

/-- `t_NUMBER`: `number`. -/
def t_NUMBER (cs : List Char) : Option Nat :=
  matchLit "number".toList cs

/-- `t_BOOLEAN`: `boolean`. -/
def t_BOOLEAN (cs : List Char) : Option Nat :=
  matchLit "boolean".toList cs

/-- `t_OBJECT`: `object`. -/
def t_OBJECT (cs : List Char) : Option Nat :=
  matchLit "object".toList cs

/-- `t_ARRAY`: `array`. -/
def t_ARRAY (cs : List Char) : Option Nat :=
  matchLit "array".toList cs

/-- `t_ENUM`: `enum`. -/
def t_ENUM (cs : List Char) : Option Nat :=
  matchLit "enum".toList cs

/-- `t_COMMA`: `,`. -/
def t_COMMA (cs : List Char) : Option Nat :=
  matchLit [','] cs

/-- `t_DATASTRUCTURES`: `[D|d]ata\s*[S|s]tructure[s]` (greedily consuming
`\s*` is exact here because no whitespace character can begin `[S|s]`). -/
def t_DATASTRUCTURES : List Char → Option Nat
  | c :: cs =>
    if (c = 'D' || c = '|' || c = 'd') && "ata".toList.isPrefixOf cs then
      let rest := cs.drop 3
      let w := countWhile isPyspace rest
      match rest.drop w with
      | k :: ks =>
        if (k = 'S' || k = '|' || k = 's') && "tructures".toList.isPrefixOf ks then
          some (4 + w + 10)
        else none
      | [] => none
    else none
  | [] => none

/-- The characters excluded by `t_TEXT`'s class. -/
def textBad (c : Char) : Bool :=
  c = '#' || c = '-' || c = '+' || c = '\t' || c = '\r' || c = '\x0c' ||
  c = '\x0b' || c = '\n' || c = '(' || c = ')' || c = '[' || c = ']' || c = ','

/-- `t_TEXT`: `([^#\-\+\t\r\f\v\n()\[\],]+)`. -/
def t_TEXT (cs : List Char) : Option Nat :=
  matchPlus (fun c => !textBad c) cs

/-- `t_LPAR`: `\(` (the nesting-count increment lives in the lexer loop). -/
def t_LPAR (cs : List Char) : Option Nat :=
  matchLit ['('] cs

/-- `t_RPAR`: `\)`. -/
def t_RPAR (cs : List Char) : Option Nat :=
  matchLit [')'] cs

/-- `t_LBRAC`: `\[`. -/
def t_LBRAC (cs : List Char) : Option Nat :=
  matchLit ['['] cs

/-- `t_RBRAC`: `\]`. -/
def t_RBRAC (cs : List Char) : Option Nat :=
  matchLit [']'] cs

/-- `t_DASH`: `\s*\-` (greedy `\s*` is exact: `-` is not a whitespace
character). -/
def t_DASH (cs : List Char) : Option Nat :=
  let w := countWhile isPyspace cs
  match cs.drop w with
  | '-' :: _ => some (w + 1)
  | _ => none

/-- `t_PLUS`: `\s*\+`. -/
def t_PLUS (cs : List Char) : Option Nat :=
  let w := countWhile isPyspace cs
  match cs.drop w with
  | '+' :: _ => some (w + 1)
  | _ => none

/-- The lexer rules in the order the Python functions are defined, which is
the order PLY places them in the master regular expression.  `t_newline`
renames its token to NEWLINE inside the rule body. -/
def lexRules : List (String × (List Char → Option Nat)) :=
  [("HEADER", t_HEADER), ("WS", t_WS), ("NEWLINE", t_newline),
   ("NUM", t_NUM), ("FIXED_TYPE", t_FIXED_TYPE), ("FIXED", t_FIXED),
   ("MEMBERS", t_MEMBERS), ("PROPERTIES", t_PROPERTIES),
   ("STRING", t_STRING), ("NUMBER", t_NUMBER), ("BOOLEAN", t_BOOLEAN),
   ("OBJECT", t_OBJECT), ("ARRAY", t_ARRAY), ("ENUM", t_ENUM),
   ("COMMA", t_COMMA), ("DATASTRUCTURES", t_DATASTRUCTURES),
   ("TEXT", t_TEXT), ("LPAR", t_LPAR), ("RPAR", t_RPAR),
   ("LBRAC", t_LBRAC), ("RBRAC", t_RBRAC), ("DASH", t_DASH),
   ("PLUS", t_PLUS)]

/-- Try each rule in order; first match wins (Python `re` alternation). -/
def tryRules : List (String × (List Char → Option Nat)) → List Char →
    Option (String × Nat)
  | [], _ => none
  | (ty, f) :: rs, cs =>
    match f cs with
    | some n => some (ty, n)
    | none => tryRules rs cs

/-- The master regular expression: the token type recognised at the head of
the input together with the number of characters it consumes. -/
def masterMatch (cs : List Char) : Option (String × Nat) :=
  tryRules lexRules cs

/-- The payload of the `SyntaxError` the scanner raises in `t_error`:
`t.value` is the whole remaining input (whose first character is the
offending one) and the token position (`lineno`, `lexpos`). -/
structure LexErr where
  value : String
  lineno : Nat
  lexpos : Nat
  deriving DecidableEq, Repr

/-- A lexical token as the parser sees it: PLY's `type`, `value`, `lineno`
and `lexpos` fields plus the `at_line_start` flag attached by
`track_tokens_filter` (synthesised INDENT/DEDENT/ENDMARKER tokens carry
`value = None`). -/
structure LexToken where
  type : String
  value : Py
  lineno : Nat
  lexpos : Nat
  atLineStart : Bool

/-- The scanner loop fused with `track_tokens_filter`: produce the annotated
token stream the indentation filter consumes.  State: the nesting counter
`paren_count`, the `at_line_start` flag (updated after each forwarded token,
which is exactly when the Python generator writes it back to the lexer
before the next raw token is scanned), the line number and the character
position.  `t_WS` keeps its token only at line start outside brackets;
`t_newline` keeps its token only outside brackets and bumps the line count;
`t_LPAR`/`t_LBRAC` and `t_RPAR`/`t_RBRAC` adjust the nesting counter.  A
position where no rule matches is `t_error`, which raises before any
recovery: the error is the final outcome.  The loop consumes at least one
character per step (every rule matches one or more characters), so it is
written with a step budget of one more than the input length; the
out-of-budget branch is unreachable from `tokenize`. -/
def lexAux (fuel : Nat) (paren : Int) (als : Bool) (lineno pos : Nat)
    (cs : List Char) : Except LexErr (List LexToken) :=
  match fuel with
  | 0 => .error ⟨String.mk cs, lineno, pos⟩
  | fuel + 1 =>
    match masterMatch cs with
    | none =>
      match cs with
      | [] => .ok []
      | _ => .error ⟨String.mk cs, lineno, pos⟩
    | some (ty, n) =>
      let value : Py := .pstr (String.mk (cs.take n))
      if ty = "WS" then
        if als && paren = 0 then
          match lexAux fuel paren true lineno (pos + n) (cs.drop n) with
          | .error e => .error e
          | .ok l => .ok (⟨"WS", value, lineno, pos, als⟩ :: l)
        else
          lexAux fuel paren als lineno (pos + n) (cs.drop n)
      else if ty = "NEWLINE" then
        if paren = 0 then
          match lexAux fuel paren true (lineno + n) (pos + n) (cs.drop n) with
          | .error e => .error e
          | .ok l => .ok (⟨"NEWLINE", value, lineno, pos, als⟩ :: l)
        else
          lexAux fuel paren als (lineno + n) (pos + n) (cs.drop n)
      else
        let paren' : Int :=
          if ty = "LPAR" || ty = "LBRAC" then paren + 1
          else if ty = "RPAR" || ty = "RBRAC" then paren - 1
          else paren
        match lexAux fuel paren' false lineno (pos + n) (cs.drop n) with
        | .error e => .error e
        | .ok l => .ok (⟨ty, value, lineno, pos, als⟩ :: l)

/-- Scan a whole document: `IndentLexer.input` resets `paren_count` to 0,
`track_tokens_filter` starts with `at_line_start = True`, and PLY starts at
line 1, position 0. -/
def tokenize (s : String) : Except LexErr (List LexToken) :=
  lexAux (s.length + 1) 0 true 1 0 s.toList

/-! ## Indentation normalizer -/

/-- The `IndentationError("inconsistent indentation")` raised by
`indentation_filter`. -/
inductive IndErr where
  | inconsistentIndentation
  deriving DecidableEq, Repr

/-- Synthesize a DEDENT token (`_new_token`: `value = None`). -/
def DEDENT (lineno lexpos : Nat) : LexToken :=
  ⟨"DEDENT", .pnone, lineno, lexpos, false⟩

/-- Synthesize an INDENT token. -/
def INDENT (lineno lexpos : Nat) : LexToken :=
  ⟨"INDENT", .pnone, lineno, lexpos, false⟩

/-- `indentation_filter` with its state explicit: the stack of indentation
levels (item 0 is the base level and is never popped), the pending depth of
the current line, and the line/position of the last token seen (used for the
closing DEDENTs).  Besides the forwarded tokens it returns what remains of
the levels stack after the end-of-input dedenting (the source simply
abandons its local `levels` list after emitting one DEDENT per level above
the base, which is popping down to the base).  WS tokens record the line
depth and are never forwarded; NEWLINE resets the depth; the first real
token of a line is compared against the top of the stack: equal is no
action, greater pushes and emits one INDENT, smaller emits one DEDENT per
popped level after locating the new depth in the stack (`levels.index`) and
raises IndentationError when it is absent. -/
def indentation_filter_aux (levels : List Nat) (depth : Nat)
    (lastLn lastPos : Nat) :
    List LexToken → Except IndErr (List LexToken × List Nat)
  | [] =>
    .ok (List.replicate (levels.length - 1) (DEDENT lastLn lastPos),
      levels.take 1)
  | t :: ts =>
    if t.type = "WS" then
      indentation_filter_aux levels t.value.getStr.length t.lineno t.lexpos ts
    else if t.type = "NEWLINE" then
      match indentation_filter_aux levels 0 t.lineno t.lexpos ts with
      | .error e => .error e
      | .ok r => .ok (t :: r.1, r.2)
    else if t.atLineStart then
      if depth = levels.getLastD 0 then
        match indentation_filter_aux levels depth t.lineno t.lexpos ts with
        | .error e => .error e
        | .ok r => .ok (t :: r.1, r.2)
      else if depth > levels.getLastD 0 then
        match indentation_filter_aux (levels ++ [depth]) depth t.lineno
            t.lexpos ts with
        | .error e => .error e
        | .ok r => .ok (INDENT t.lineno (t.lexpos - depth) :: t :: r.1, r.2)
      else
        let i := levels.findIdx (fun l => l == depth)
        if i < levels.length then
          match indentation_filter_aux (levels.take (i + 1)) depth t.lineno
              t.lexpos ts with
          | .error e => .error e
          | .ok r =>
            .ok (List.replicate (levels.length - (i + 1))
                (DEDENT t.lineno (t.lexpos - depth)) ++ t :: r.1, r.2)
        else
          .error .inconsistentIndentation
    else
      match indentation_filter_aux levels depth t.lineno t.lexpos ts with
      | .error e => .error e
      | .ok r => .ok (t :: r.1, r.2)

/-- The indentation filter as the pipeline uses it: fresh state
`levels = [0]`, depth 0. -/
def indentation_filter (toks : List LexToken) :
    Except IndErr (List LexToken) :=
  Prod.fst <$> indentation_filter_aux [0] 0 1 0 toks

/-- The top-level `filter` appends an ENDMARKER carrying the last token's
line and position (line 1, position 0 when there were no tokens). -/
def addEndmarker (toks : List LexToken) : List LexToken :=
  match toks.getLast? with
  | some t => toks ++ [⟨"ENDMARKER", .pnone, t.lineno, t.lexpos, false⟩]
  | none => toks ++ [⟨"ENDMARKER", .pnone, 1, 0, false⟩]

/-! ## Builder: the yacc semantic actions

Each `p_X` takes the list `ps` of semantic values of the matched
production's right-hand-side symbols; `pidx ps i` is Python's `p[i]` and
`ps.length + 1` is Python's `len(p)`.  Token symbols contribute their string
values; nonterminals contribute the `Py` value their own action returned. -/

/-- Python's `p[i]`. -/
def pidx (ps : List Py) (i : Nat) : Py := ps.getD (i - 1) .pnone

/-- `p_error`: the builder's error hook only prints the offending token and
returns `None`; it raises nothing, so a builder syntax error never surfaces
as an exception. -/
def p_error (_p : Py) : Py := .pnone

/-- `p_result`: wrap the list of header objects in a `refract.Array`
(the three-symbol alternative has the optional `data_structs` in front, so
the list is `p[2]` there and `p[1]` otherwise). -/
def p_result (ps : List Py) : Py :=
  if ps.length + 1 > 3 then refract.Array (pidx ps 2)
  else refract.Array (pidx ps 1)

/-- `p_data_structs`: no assignment to `p[0]`, hence `None`. -/
def p_data_structs (_ps : List Py) : Py := .pnone

/-- `p_header_objects`: accumulate header objects into a Python list. -/
def p_header_objects (ps : List Py) : Py :=
  if ps.length + 1 > 2 then .plist ((pidx ps 1).getList ++ [pidx ps 2])
  else .plist [pidx ps 1]

/-- `p_header_object`: build the root element of a header section.  The
metadata id is the raw TEXT value `p[2]` (not stripped); the attribute
dictionary copies `p[3].__dict__['apyb']` when the annotation carries a
type modifier.  Branches on `len(p)`: 8 and 7 are the alternatives with a
description, `len(p) > 5` (that is 6) is `HEADER TEXT type_def NEWLINE
object_items`, and the remaining `len(p) = 5` covers both `HEADER TEXT
NEWLINE object_items` (where `p[3]` is the NEWLINE string) and `HEADER TEXT
type_def NEWLINE` (where `p[3]` is the annotation element, which the code
labels with the metadata and attributes but then drops: `p[0]` is never
assigned in that branch, so the production's value is `None`). -/
def p_header_object (ps : List Py) : Py :=
  let meta := refract.Metadata (refract.String (pidx ps 2)) .pnone
  let attributes := copyTypeAttrs refract.Attributes (pidx ps 3)
  if ps.length + 1 = 8 then
    refract.Object (pidx ps 7)
      (setDescription meta (refract.String (pidx ps 5))) attributes
  else if ps.length + 1 = 7 then
    refract.Object (pidx ps 6)
      (setDescription meta (refract.String (pidx ps 4))) attributes
  else if ps.length + 1 > 5 then
    refract.Object (pidx ps 5) meta attributes
  else
    match pidx ps 3 with
    | .pstr _ => refract.Object (pidx ps 4) meta attributes
    | p3 =>
      -- `p[3].meta = meta; p[3].attributes = attributes` mutates the
      -- annotation element, but `p[0]` is never assigned, so the labelled
      -- element is discarded and the production's value stays `None`.
      let _labelled := setAttributes (setMeta p3 meta) attributes
      Py.pnone

/-- `p_description`: concatenate the values of `p[1:]` (the TEXT values and
the separating NEWLINE value) into one string. -/
def p_description (ps : List Py) : Py :=
  .pstr (ps.foldl (fun acc x => acc ++ x.getStr) "")

/-- `p_type_def`: resolve the base type: an `array_def` value is passed
through, the keyword strings map to the primitive refract elements, and any
other value (the ENUM keyword string or a free TEXT name) becomes a generic
`refract.Element`.  A present `type_spec` is recorded on the element as the
dynamic attribute `apyb = [p[3]]`. -/
def p_type_def (ps : List Py) : Py :=
  let p2 := pidx ps 2
  let base :=
    match p2 with
    | .pelem "array" m a c ap => .pelem "array" m a c ap
    | .pstr "number" => refract.Number
    | .pstr "object" => refract.ObjectE
    | .pstr "boolean" => refract.Boolean
    | .pstr "string" => refract.String .pnone
    | x => refract.Element x
  match pidx ps 3 with
  | .pnone => base
  | p3 => setApyb base (.plist [p3])

/-- `p_array_def`: `array` or `array[Name]`; the bracketed name becomes the
sole referenced member element. -/
def p_array_def (ps : List Py) : Py :=
  if ps.length + 1 > 2 then
    refract.Array (.plist [refract.Element (pidx ps 3)])
  else refract.Array .pnone

/-- `p_type_spec`: the optional `, fixed` / `, fixed-type` modifier; yields
the keyword string or `None` for the empty alternative. -/
def p_type_spec (ps : List Py) : Py :=
  if ps.length + 1 > 1 then pidx ps 2 else .pnone

/-- Models the Python test `'\n' in p[2]` in `p_object_itmes`: in the
`object_line NEWLINE` alternative `p[2]` is the NEWLINE token's string value
(which contains a newline); in the `object_items implicit_object`
alternative it is the implicit `refract.Object`, which does not contain the
character. -/
def pyContainsNewline : Py → Bool
  | .pstr s => s.toList.contains '\n'
  | _ => false

/-- `p[1][-1].value = p[2]`: replace the value of the last member of the
item list (the list is never empty here; a non-member last entry is left
unchanged). -/
def setLastValue (l : List Py) (v : Py) : List Py :=
  match l.getLast? with
  | some (.pmember k _ m a) => l.dropLast ++ [.pmember k v m a]
  | _ => l

/-- `p_object_itmes` (sic): the four `object_items` alternatives.  With
`len(p) < 4`: either the base `object_line NEWLINE` (start a fresh list) or
`object_items implicit_object` (fold the implicit object into the preceding
member as its value).  With `len(p) = 4`: either `member_def NEWLINE
object_items` (`p[2]` is the NEWLINE string; pass the inner list through)
or `object_items object_line NEWLINE` (append the new member). -/
def p_object_itmes (ps : List Py) : Py :=
  if ps.length + 1 < 4 then
    if pyContainsNewline (pidx ps 2) then .plist [pidx ps 1]
    else .plist (setLastValue (pidx ps 1).getList (pidx ps 2))
  else
    match pidx ps 2 with
    | .pstr _ => pidx ps 3
    | _ => .plist ((pidx ps 1).getList ++ [pidx ps 2])

/-- `p_members`: the `## Members` / `## Properties` marker produces no node
(`p[0]` stays `None`). -/
def p_members (_ps : List Py) : Py := .pnone

/-- `p_implicit_object`: an indented block becomes an anonymous
`refract.Object` holding the nested items. -/
def p_implicit_object (ps : List Py) : Py :=
  refract.Object (pidx ps 2) defaultMeta refract.Attributes

/-- Models `p[3] is '-'`: identity with the interned one-character string
`'-'`, which holds exactly when the value is the string `"-"` (CPython
interns one-character strings, and a DASH token's value is `"-"` whenever
the match consumed no leading whitespace). -/
def isDashLiteral : Py → Bool
  | .pstr s => s == "-"
  | _ => false

/-- `p_object_line`: build a `refract.Member` from a bullet line.  The key
is the stripped TEXT value; with no annotation (`len(p) < 4`) the value is a
default `refract.String()`.  Otherwise the attribute dictionary copies any
`apyb` modifier from `p[3]` first; if `p[3]` is the bare dash token
(`p[3] is '-'`, exact because CPython interns the one-character string) the
value is a default `refract.String()` and the metadata description is the
raw trailing TEXT `p[4]`; otherwise the value is the annotation element
`p[3]`, with the stripped trailing TEXT `p[5]` as description when present
(`len(p) > 5`). -/
def p_object_line (ps : List Py) : Py :=
  let attributes := refract.Attributes
  if ps.length + 1 < 4 then
    refract.Member (refract.String (.pstr (pyStrip (pidx ps 2).getStr)))
      (refract.String .pnone) .pnone attributes
  else
    let attributes := copyTypeAttrs attributes (pidx ps 3)
    if isDashLiteral (pidx ps 3) then
      refract.Member (refract.String (.pstr (pyStrip (pidx ps 2).getStr)))
        (refract.String .pnone)
        (refract.Metadata .pnone (pidx ps 4)) attributes
    else if ps.length + 1 > 5 then
      refract.Member (refract.String (.pstr (pyStrip (pidx ps 2).getStr)))
        (pidx ps 3)
        (refract.Metadata .pnone
          (refract.String (.pstr (pyStrip (pidx ps 5).getStr))))
        attributes
    else
      refract.Member (refract.String (.pstr (pyStrip (pidx ps 2).getStr)))
        (pidx ps 3) .pnone attributes

/-! ## Builder: parsing

A deterministic recursive-descent reading of the yacc grammar

```text
result          : header_objects ENDMARKER
                | data_structs header_objects ENDMARKER
data_structs    : HEADER DATASTRUCTURES NEWLINE
header_objects  : header_objects header_object | header_object
header_object   : HEADER TEXT type_def NEWLINE object_items
                | HEADER TEXT NEWLINE object_items
                | HEADER TEXT NEWLINE description NEWLINE object_items
                | HEADER TEXT type_def NEWLINE description NEWLINE object_items
                | HEADER TEXT type_def NEWLINE
description     : TEXT NEWLINE TEXT | description TEXT NEWLINE TEXT
type_def        : LPAR (OBJECT|NUMBER|BOOLEAN|STRING|ENUM|TEXT|array_def)
                  type_spec RPAR
array_def       : ARRAY | ARRAY LBRAC TEXT RBRAC
type_spec       : COMMA FIXED | COMMA FIXED_TYPE | (empty)
object_items    : object_items object_line NEWLINE
                | object_items implicit_object
                | member_def NEWLINE object_items
                | object_line NEWLINE
member_def      : HEADER MEMBERS | HEADER PROPERTIES
implicit_object : INDENT object_items DEDENT
object_line     : (DASH|PLUS) TEXT [type_def] [DASH TEXT]
```

applying the `p_*` actions at each reduction.  Every choice point is
committed on one token of lookahead, exactly as the LALR tables decide it
(the grammar's FIRST/FOLLOW sets are disjoint at every alternative, and the
one shift/reduce conflict — after `HEADER TEXT type_def NEWLINE`, shift
HEADER towards `member_def` versus the itemless reduction — is resolved as
the engine resolves it, shift, so the itemless reduction fires only on
ENDMARKER lookahead).  A parse function fails with the stream positioned at
the offending token: because LALR reductions consume no input, the token at
which the engine's action table has no entry is precisely the first token a
committed descent cannot accept, so the failure position matches the
lookahead the engine hands to `p_error`.  The left-recursive `object_items`
and `header_objects` (and the left-recursive `description` continuation,
whose extra TEXT can follow the previous one directly when a discarded
separator — a mid-line tab, or a newline inside brackets — splits two text
runs) become accumulation loops.  On top of the committed descent,
`yacc_parse` models the engine's error handling with the source's `p_error`
hook: no exception, panic-mode resynchronization (see there). -/

/-- The type of the next token (empty when the stream is exhausted). -/
def peekType : List LexToken → String
  | [] => ""
  | t :: _ => t.type

/-- `type_spec`: `COMMA (FIXED|FIXED_TYPE)`, or the empty alternative on
any other lookahead (the engine reduces it only before RPAR; a wrong token
after the ε-reduction is caught by `parse_type_def`'s RPAR check at the
same position).  After a COMMA the modifier keyword is committed: anything
else there is the offending token. -/
def parse_type_spec (ts : List LexToken) :
    Except (List LexToken) (Py × List LexToken) :=
  match ts with
  | t1 :: rest =>
    if t1.type = "COMMA" then
      match rest with
      | t2 :: rest2 =>
        if t2.type = "FIXED" || t2.type = "FIXED_TYPE" then
          .ok (p_type_spec [t1.value, t2.value], rest2)
        else .error rest
      | [] => .error []
    else .ok (p_type_spec [], ts)
  | [] => .ok (p_type_spec [], ts)

/-- `array_def`: `ARRAY`, committed to `LBRAC TEXT RBRAC` when an LBRAC
follows (the bare reduction happens only on COMMA/RPAR lookahead). -/
def parse_array_def (ts : List LexToken) :
    Except (List LexToken) (Py × List LexToken) :=
  match ts with
  | t :: rest =>
    if t.type = "ARRAY" then
      match rest with
      | a :: rest1 =>
        if a.type = "LBRAC" then
          match rest1 with
          | b :: rest2 =>
            if b.type = "TEXT" then
              match rest2 with
              | c :: rest3 =>
                if c.type = "RBRAC" then
                  .ok (p_array_def [t.value, a.value, b.value, c.value],
                    rest3)
                else .error rest2
              | [] => .error []
            else .error rest1
          | [] => .error []
        else .ok (p_array_def [t.value], rest)
      | [] => .ok (p_array_def [t.value], rest)
    else .error ts
  | [] => .error []

/-- `type_def`: a parenthesised base type with optional modifier; committed
once the LPAR is seen. -/
def parse_type_def (ts : List LexToken) :
    Except (List LexToken) (Py × List LexToken) :=
  match ts with
  | t :: rest =>
    if t.type = "LPAR" then
      let base : Except (List LexToken) (Py × List LexToken) :=
        match rest with
        | b :: rest2 =>
          if b.type = "OBJECT" || b.type = "NUMBER" || b.type = "BOOLEAN" ||
              b.type = "STRING" || b.type = "ENUM" || b.type = "TEXT" then
            .ok (b.value, rest2)
          else if b.type = "ARRAY" then parse_array_def rest
          else .error rest
        | [] => .error []
      match base with
      | .error e => .error e
      | .ok (bv, rest2) =>
        match parse_type_spec rest2 with
        | .error e => .error e
        | .ok (spec, rest3) =>
          match rest3 with
          | r :: rest4 =>
            if r.type = "RPAR" then
              .ok (p_type_def [t.value, bv, spec, r.value], rest4)
            else .error rest3
          | [] => .error []
    else .error ts
  | [] => .error []

/-- `object_line`: a bullet (`DASH`/`PLUS`) and name; an LPAR commits to a
`type_def`, and a DASH after the value commits to the trailing
`DASH TEXT`. -/
def parse_object_line (ts : List LexToken) :
    Except (List LexToken) (Py × List LexToken) :=
  match ts with
  | b :: rest =>
    if b.type = "DASH" || b.type = "PLUS" then
      match rest with
      | n :: rest1 =>
        if n.type = "TEXT" then
          let td : Except (List LexToken) (Option Py × List LexToken) :=
            if peekType rest1 = "LPAR" then
              match parse_type_def rest1 with
              | .error e => .error e
              | .ok (v, r) => .ok (some v, r)
            else .ok (none, rest1)
          match td with
          | .error e => .error e
          | .ok (tdOpt, rest2) =>
            match rest2 with
            | d :: rest3 =>
              if d.type = "DASH" then
                match rest3 with
                | x :: rest4 =>
                  if x.type = "TEXT" then
                    match tdOpt with
                    | some v =>
                      .ok (p_object_line [b.value, n.value, v, d.value,
                        x.value], rest4)
                    | none =>
                      .ok (p_object_line [b.value, n.value, d.value,
                        x.value], rest4)
                  else .error rest3
                | [] => .error []
              else
                match tdOpt with
                | some v => .ok (p_object_line [b.value, n.value, v], rest2)
                | none => .ok (p_object_line [b.value, n.value], rest2)
            | [] =>
              match tdOpt with
              | some v => .ok (p_object_line [b.value, n.value, v], rest2)
              | none => .ok (p_object_line [b.value, n.value], rest2)
        else .error rest
      | [] => .error []
    else .error ts
  | [] => .error []

/-- The left-recursive continuations `description TEXT NEWLINE TEXT`: as
long as a TEXT token directly follows the completed description, another
`TEXT NEWLINE TEXT` triple is committed.  Each iteration consumes three
tokens, so the callers' step budget never runs out (the zero-budget branch
is unreachable from `parse_result`). -/
def parse_description_loop (fuel : Nat) (acc : Py) (ts : List LexToken) :
    Except (List LexToken) (Py × List LexToken) :=
  match fuel with
  | 0 => .error ts
  | fuel + 1 =>
    match ts with
    | a :: rest1 =>
      if a.type = "TEXT" then
        match rest1 with
        | nl :: rest2 =>
          if nl.type = "NEWLINE" then
            match rest2 with
            | c :: rest3 =>
              if c.type = "TEXT" then
                parse_description_loop fuel
                  (p_description [acc, a.value, nl.value, c.value]) rest3
              else .error rest2
            | [] => .error []
          else .error rest1
        | [] => .error []
      else .ok (acc, ts)
    | [] => .ok (acc, ts)

/-- `description`: the base `TEXT NEWLINE TEXT`, then the left-recursive
continuations. -/
def parse_description (fuel : Nat) (ts : List LexToken) :
    Except (List LexToken) (Py × List LexToken) :=
  match ts with
  | a :: rest1 =>
    if a.type = "TEXT" then
      match rest1 with
      | nl :: rest2 =>
        if nl.type = "NEWLINE" then
          match rest2 with
          | c :: rest3 =>
            if c.type = "TEXT" then
              parse_description_loop fuel
                (p_description [a.value, nl.value, c.value]) rest3
            else .error rest2
          | [] => .error []
        else .error rest1
      | [] => .error []
    else .error ts
  | [] => .error []

mutual

/-- `object_items`: a HEADER commits to the leading `member_def NEWLINE
object_items` alternative, a DASH/PLUS to the base `object_line NEWLINE`
followed by the left-recursive continuations; any other first token —
including an INDENT — is the offending token, since no alternative can
start with it. -/
def parse_object_items (fuel : Nat) (ts : List LexToken) :
    Except (List LexToken) (Py × List LexToken) :=
  match fuel with
  | 0 => .error ts
  | fuel + 1 =>
    if peekType ts = "HEADER" then
      match ts with
      | h :: rest1 =>
        match rest1 with
        | m :: rest2 =>
          if m.type = "MEMBERS" || m.type = "PROPERTIES" then
            match rest2 with
            | nl :: rest3 =>
              if nl.type = "NEWLINE" then
                match parse_object_items fuel rest3 with
                | .error e => .error e
                | .ok (items, rest4) =>
                  .ok (p_object_itmes [p_members [h.value, m.value],
                    nl.value, items], rest4)
              else .error rest2
            | [] => .error []
          else .error rest1
        | [] => .error []
      | [] => .error ts
    else if peekType ts = "DASH" || peekType ts = "PLUS" then
      match parse_object_line ts with
      | .error e => .error e
      | .ok (line, rest1) =>
        match rest1 with
        | nl :: rest2 =>
          if nl.type = "NEWLINE" then
            parse_items_loop fuel (p_object_itmes [line, nl.value]) rest2
          else .error rest1
        | [] => .error []
    else .error ts

/-- The left-recursive continuations of `object_items`: a further
`object_line NEWLINE` on DASH/PLUS, an `implicit_object` (`INDENT
object_items DEDENT`) on INDENT; any other lookahead ends the item list. -/
def parse_items_loop (fuel : Nat) (acc : Py) (ts : List LexToken) :
    Except (List LexToken) (Py × List LexToken) :=
  match fuel with
  | 0 => .error ts
  | fuel + 1 =>
    if peekType ts = "DASH" || peekType ts = "PLUS" then
      match parse_object_line ts with
      | .error e => .error e
      | .ok (line, rest1) =>
        match rest1 with
        | nl :: rest2 =>
          if nl.type = "NEWLINE" then
            parse_items_loop fuel (p_object_itmes [acc, line, nl.value])
              rest2
          else .error rest1
        | [] => .error []
    else if peekType ts = "INDENT" then
      match ts with
      | ind :: rest1 =>
        match parse_object_items fuel rest1 with
        | .error e => .error e
        | .ok (items, rest2) =>
          match rest2 with
          | d :: rest3 =>
            if d.type = "DEDENT" then
              parse_items_loop fuel
                (p_object_itmes [acc,
                  p_implicit_object [ind.value, items, d.value]]) rest3
            else .error rest2
          | [] => .error []
      | [] => .error ts
    else .ok (acc, ts)

end

/-- `header_object`: `HEADER TEXT`, a type_def committed on LPAR,
`NEWLINE`, then on TEXT lookahead a description (followed by `NEWLINE
object_items`), on DASH/PLUS/HEADER lookahead the object items, and on
ENDMARKER lookahead — only with an annotation, since the shift of HEADER
wins over the itemless reduction — the itemless production
`HEADER TEXT type_def NEWLINE`.  Any other lookahead after the NEWLINE is
the offending token. -/
def parse_header_object (fuel : Nat) (ts : List LexToken) :
    Except (List LexToken) (Py × List LexToken) :=
  match ts with
  | h :: rest0 =>
    if h.type = "HEADER" then
      match rest0 with
      | n :: rest1 =>
        if n.type = "TEXT" then
          let td : Except (List LexToken) (Option Py × List LexToken) :=
            if peekType rest1 = "LPAR" then
              match parse_type_def rest1 with
              | .error e => .error e
              | .ok (v, r) => .ok (some v, r)
            else .ok (none, rest1)
          match td with
          | .error e => .error e
          | .ok (tdOpt, rest2) =>
            match rest2 with
            | nl :: rest3 =>
              if nl.type = "NEWLINE" then
                if peekType rest3 = "TEXT" then
                  match parse_description fuel rest3 with
                  | .error e => .error e
                  | .ok (desc, rest4) =>
                    match rest4 with
                    | nl2 :: rest5 =>
                      if nl2.type = "NEWLINE" then
                        match parse_object_items fuel rest5 with
                        | .error e => .error e
                        | .ok (items, rest6) =>
                          match tdOpt with
                          | some v =>
                            .ok (p_header_object [h.value, n.value, v,
                              nl.value, desc, nl2.value, items], rest6)
                          | none =>
                            .ok (p_header_object [h.value, n.value,
                              nl.value, desc, nl2.value, items], rest6)
                      else .error rest4
                    | [] => .error []
                else if peekType rest3 = "DASH" || peekType rest3 = "PLUS" ||
                    peekType rest3 = "HEADER" then
                  match parse_object_items fuel rest3 with
                  | .error e => .error e
                  | .ok (items, rest4) =>
                    match tdOpt with
                    | some v =>
                      .ok (p_header_object [h.value, n.value, v, nl.value,
                        items], rest4)
                    | none =>
                      .ok (p_header_object [h.value, n.value, nl.value,
                        items], rest4)
                else
                  match tdOpt with
                  | some v =>
                    if peekType rest3 = "ENDMARKER" then
                      .ok (p_header_object [h.value, n.value, v, nl.value],
                        rest3)
                    else .error rest3
                  | none => .error rest3
              else .error rest2
            | [] => .error []
        else .error rest0
      | [] => .error []
    else .error ts
  | [] => .error []

/-- Continue `header_objects` as long as HEADER lookaheads allow; once a
HEADER is shifted the next header object is committed. -/
def parse_header_objects_loop (fuel : Nat) (acc : Py) (ts : List LexToken) :
    Except (List LexToken) (Py × List LexToken) :=
  match fuel with
  | 0 => .error ts
  | fuel + 1 =>
    if peekType ts = "HEADER" then
      match parse_header_object fuel ts with
      | .error e => .error e
      | .ok (ho, rest) =>
        parse_header_objects_loop fuel (p_header_objects [acc, ho]) rest
    else .ok (acc, ts)

/-- `header_objects`. -/
def parse_header_objects (fuel : Nat) (ts : List LexToken) :
    Except (List LexToken) (Py × List LexToken) :=
  match parse_header_object fuel ts with
  | .error e => .error e
  | .ok (ho, rest) =>
    parse_header_objects_loop fuel (p_header_objects [ho]) rest

/-- One attempt at the start symbol `result` from the initial state: an
optional `data_structs` marker (committed when DATASTRUCTURES follows the
first HEADER), the header objects, and the ENDMARKER, which must close the
stream.  On failure the error carries the stream at the offending token
(`[]` when the offence is the end of the stream itself). -/
def parse_result (ts : List LexToken) : Except (List LexToken) Py :=
  let fuel := ts.length + 1
  match ts with
  | h :: d :: rest =>
    if h.type = "HEADER" && d.type = "DATASTRUCTURES" then
      match rest with
      | nl :: rest2 =>
        if nl.type = "NEWLINE" then
          match parse_header_objects fuel rest2 with
          | .error e => .error e
          | .ok (hos, rest3) =>
            match rest3 with
            | e :: rest4 =>
              if e.type = "ENDMARKER" then
                match rest4 with
                | [] => .ok (p_result [p_data_structs [h.value, d.value,
                    nl.value], hos, e.value])
                | _ => .error rest4
              else .error rest3
            | [] => .error []
        else .error rest
      | [] => .error []
    else
      match parse_header_objects fuel ts with
      | .error e => .error e
      | .ok (hos, rest2) =>
        match rest2 with
        | e :: rest3 =>
          if e.type = "ENDMARKER" then
            match rest3 with
            | [] => .ok (p_result [hos, e.value])
            | _ => .error rest3
          else .error rest2
        | [] => .error []
  | _ =>
    match parse_header_objects (ts.length + 1) ts with
    | .error e => .error e
    | .ok (hos, rest2) =>
      match rest2 with
      | e :: rest3 =>
        if e.type = "ENDMARKER" then
          match rest3 with
          | [] => .ok (p_result [hos, e.value])
          | _ => .error rest3
        else .error rest2
      | [] => .error []

/-- The engine's parse loop under the source's `p_error` hook.  `p_error`
only prints the offending token and returns `None`, and the grammar has no
`error` production, so every syntax error triggers the engine's panic-mode
resynchronization: the parsed context is popped, the offending lookahead
is discarded (after consulting `p_error`, which supplies no replacement
token), and parsing resumes from the initial state on the remaining
tokens.  A later attempt that reaches acceptance returns its document — a
rejected prefix does not prevent a following section from being parsed and
returned — and only when the offence is the end of the stream itself is
the whole parse given up with `None`.  Each round discards at least one
token, so the step budget of one more than the stream length never runs
out from `apyb_parse`. -/
def yacc_parse (fuel : Nat) (ts : List LexToken) : Option Py :=
  match fuel with
  | 0 => none
  | fuel + 1 =>
    match parse_result ts with
    | .ok doc => some doc
    | .error [] => none
    | .error (off :: after) =>
      let _hook := p_error off.value
      yacc_parse fuel after

/-! ## The pipeline -/

/-- An exception escaping the pipeline: the scanner's `t_error` raise or
the indentation filter's IndentationError.  The builder contributes no
constructor because `p_error` raises nothing. -/
inductive PipelineErr where
  | lexical (e : LexErr)
  | indentation (e : IndErr)
  deriving DecidableEq, Repr

/-- The whole pipeline on one document: scan, normalise indentation, append
the ENDMARKER, parse (with the engine's error resynchronization).  The
stages are lazily interleaved in the source, but the parser — accepting,
or draining the stream through recovery — always pulls the whole token
stream, so running the stages to completion in order yields the same
outcome.  `Except.ok none` is a parse that produced no document. -/
def apyb_parse (s : String) : Except PipelineErr (Option Py) :=
  match tokenize s with
  | .error e => .error (.lexical e)
  | .ok toks =>
    match indentation_filter toks with
    | .error e => .error (.indentation e)
    | .ok toks2 =>
      let toks3 := addEndmarker toks2
      .ok (yacc_parse (toks3.length + 1) toks3)

/-! ## Observations used by the theorem statements -/

/-- The element names of the root elements of a parse outcome (the content
list of the `refract.Array` that `p_result` wraps the header objects in);
`[]` for error outcomes.  A `None` root contributes the empty name. -/
def docRootKinds (r : Except PipelineErr (Option Py)) : List String :=
  match r with
  | .ok (some (.pelem _ _ _ (.plist l) _)) => l.map Py.elementName
  | _ => []

/-- The metadata id of an element. -/
def metaIdOf : Py → Py
  | .pelem _ (.pmeta i _) _ _ _ => i
  | _ => .pnone

/-- The key of a member. -/
def memberKeyOf : Py → Py
  | .pmember k _ _ _ => k
  | _ => .pnone

/-- How many tokens of the given type a stream contains. -/
def countType (ty : String) (l : List LexToken) : Nat :=
  (l.filter (fun t => t.type == ty)).length

/-- The scanner output for the two-line document `"a\n  b\n"`. -/
def c8demoToks : List LexToken :=
  [⟨"TEXT", Py.pstr "a", 1, 0, true⟩, ⟨"NEWLINE", Py.pstr "\n", 1, 1, false⟩,
   ⟨"WS", Py.pstr "  ", 2, 2, true⟩, ⟨"TEXT", Py.pstr "b", 2, 4, true⟩,
   ⟨"NEWLINE", Py.pstr "\n", 2, 5, false⟩]

/-- The indentation filter's output on `c8demoToks`: one INDENT for the
indented second line and the closing DEDENT at end of input. -/
def c8demoOut : List LexToken :=
  [⟨"TEXT", Py.pstr "a", 1, 0, true⟩, ⟨"NEWLINE", Py.pstr "\n", 1, 1, false⟩,
   INDENT 2 2, ⟨"TEXT", Py.pstr "b", 2, 4, true⟩,
   ⟨"NEWLINE", Py.pstr "\n", 2, 5, false⟩, DEDENT 2 5]

/-! ## Claims -/

/-- C1, counterexample: the claim says the root element of a header section
with a type annotation followed by object items has the kind resolved from
the annotation; but for `"# a (number)\n- b\n"` (annotation kind Number) the
produced root element's kind is `object`, not `number` — `p_header_object`
builds a `refract.Object` whenever object items are present, regardless of
the annotation's resolved kind. -/
theorem c1_counterexample :
    docRootKinds (apyb_parse "# a (number)\n- b\n") = ["object"] ∧
    docRootKinds (apyb_parse "# a (number)\n- b\n") ≠ ["number"] :=
  ⟨rfl, by decide⟩

/-- C1, amended: for every header section that carries a type annotation and
is followed by object items, the root element is an `Object` — the
annotation's resolved kind is discarded — with any type-modifier tag copied
from the annotation into its attributes, and with the parsed object items as
its content.  Stated for both with-items productions of `p_header_object`
(without and with a description), plus a whole-pipeline instance whose
`(number, fixed)` annotation shows the modifier tag arriving in the root
Object's attributes while the `number` kind is dropped. -/
theorem c1_amended :
    (∀ (hv : Py) (name : String) (td : Py) (nlv : String) (items : Py),
      p_header_object [hv, Py.pstr name, td, Py.pstr nlv, items] =
        refract.Object items
          (refract.Metadata (refract.String (Py.pstr name)) Py.pnone)
          (copyTypeAttrs refract.Attributes td)) ∧
    (∀ (hv : Py) (name : String) (td : Py) (nlv : String) (desc : Py)
        (nlv2 : String) (items : Py),
      p_header_object
          [hv, Py.pstr name, td, Py.pstr nlv, desc, Py.pstr nlv2, items] =
        refract.Object items
          (refract.Metadata (refract.String (Py.pstr name))
            (refract.String desc))
          (copyTypeAttrs refract.Attributes td)) ∧
    apyb_parse "# a (number, fixed)\n- b\n" =
      Except.ok (some (refract.Array (Py.plist [refract.Object
        (Py.plist [refract.Member (refract.String (Py.pstr "b"))
          (refract.String Py.pnone) Py.pnone refract.Attributes])
        (refract.Metadata (refract.String (Py.pstr "a ")) Py.pnone)
        (Py.pattrs (Py.plist [Py.pstr "fixed"]))]))) :=
  ⟨fun _ _ _ _ _ => rfl, fun _ _ _ _ _ _ _ => rfl, rfl⟩

/-- C2: the claim expects `"# Foo (array[Bar])\n"` to yield a document whose
single root is an `Array` named `"Foo"` referencing `"Bar"`.  The code
instead yields a document whose single root entry is Python `None`: in the
`HEADER TEXT type_def NEWLINE` branch `p_header_object` labels the
annotation element with the metadata and attributes but never assigns
`p[0]`, so the labelled `Array` is dropped and `None` is appended to the
document.  This theorem evaluates the pipeline at the failing input. -/
theorem c2_code_bug :
    apyb_parse "# Foo (array[Bar])\n" =
      Except.ok (some (refract.Array (Py.plist [Py.pnone]))) := rfl

/-- C3, counterexample: the claim says a header with no type annotation
whose object items are exactly one implicit indented block becomes that
block's element relabelled with the header's name.  For
`"# a\n    - b\n"` no document is produced at all: `object_items` has no
production that begins with an implicit block (INDENT), so the parse fails,
and in particular the result is not the relabelled nested element the claim
describes. -/
theorem c3_counterexample :
    apyb_parse "# a\n    - b\n" = Except.ok none ∧
    apyb_parse "# a\n    - b\n" ≠
      Except.ok (some (refract.Object
        (Py.plist [refract.Member (refract.String (Py.pstr "b"))
          (refract.String Py.pnone) Py.pnone refract.Attributes])
        (refract.Metadata (refract.String (Py.pstr "a")) Py.pnone)
        refract.Attributes)) := by
  refine ⟨rfl, fun h => ?_⟩
  rw [show apyb_parse "# a\n    - b\n" = Except.ok none from rfl] at h
  exact Option.noConfusion (Except.ok.inj h)

/-- C3, amended: there is no push-down rule.  A header section with no type
annotation cannot have an implicit indented block as its only content:
`object_items` never accepts a stream starting with an INDENT token (its
alternatives begin with a member line or a members/properties marker, so
the INDENT itself is the offending token), and the parse of such input
yields no document. -/
theorem c3_amended :
    (∀ (fuel : Nat) (v : Py) (ln lp : Nat) (als : Bool) (ts : List LexToken),
      parse_object_items fuel (⟨"INDENT", v, ln, lp, als⟩ :: ts) =
        Except.error (⟨"INDENT", v, ln, lp, als⟩ :: ts)) ∧
    apyb_parse "# a\n  - b\n" = Except.ok none := by
  refine ⟨?_, rfl⟩
  intro fuel v ln lp als ts
  cases fuel with
  | zero => rfl
  | succ fuel => rfl

/-- C4: every member line yields a member whose key is the stripped name,
whose value is the resolved annotation element when one is given and a
default `String` element otherwise, whose attributes copy any type-modifier
tag from the annotation, and whose metadata description is the trailing text
when present (stripped, in the annotated form).  Stated for the bare, the
annotated, and the annotated-with-trailing-text alternatives of
`p_object_line`, plus the whole-pipeline instance
`"- count (number) - the total\n"` inside an object block, which yields key
`"count"`, value kind Number, description `"the total"`. -/
theorem c4 :
    (∀ (bv : Py) (name : String),
      p_object_line [bv, Py.pstr name] =
        refract.Member (refract.String (Py.pstr (pyStrip name)))
          (refract.String Py.pnone) Py.pnone refract.Attributes) ∧
    (∀ (bv : Py) (name n : String) (m a c ap : Py),
      p_object_line [bv, Py.pstr name, Py.pelem n m a c ap] =
        refract.Member (refract.String (Py.pstr (pyStrip name)))
          (Py.pelem n m a c ap) Py.pnone
          (copyTypeAttrs refract.Attributes (Py.pelem n m a c ap))) ∧
    (∀ (bv : Py) (name n : String) (m a c ap dv : Py) (text : String),
      p_object_line [bv, Py.pstr name, Py.pelem n m a c ap, dv,
          Py.pstr text] =
        refract.Member (refract.String (Py.pstr (pyStrip name)))
          (Py.pelem n m a c ap)
          (refract.Metadata Py.pnone
            (refract.String (Py.pstr (pyStrip text))))
          (copyTypeAttrs refract.Attributes (Py.pelem n m a c ap))) ∧
    apyb_parse "# a\n- count (number) - the total\n" =
      Except.ok (some (refract.Array (Py.plist [refract.Object
        (Py.plist [refract.Member (refract.String (Py.pstr "count"))
          refract.Number
          (refract.Metadata Py.pnone (refract.String (Py.pstr "the total")))
          refract.Attributes])
        (refract.Metadata (refract.String (Py.pstr "a")) Py.pnone)
        refract.Attributes]))) :=
  ⟨fun _ _ => rfl, fun _ _ _ _ _ _ _ => rfl, fun _ _ _ _ _ _ _ _ _ => rfl,
    rfl⟩

/-- C5: a member line of the form name, bare dash, trailing text (the dash
token value being the bare `"-"`) produces a member whose value is a default
`String` element and whose metadata description is the trailing text — the
"no type annotation, but trailing description" behaviour.  The
whole-pipeline instance `"# a\n- k - d\n"` yields a member with key `"k"`,
value kind String, description `"d"`. -/
theorem c5 :
    (∀ (bv : Py) (name text : String),
      p_object_line [bv, Py.pstr name, Py.pstr "-", Py.pstr text] =
        refract.Member (refract.String (Py.pstr (pyStrip name)))
          (refract.String Py.pnone)
          (refract.Metadata Py.pnone (Py.pstr text)) refract.Attributes) ∧
    apyb_parse "# a\n- k - d\n" =
      Except.ok (some (refract.Array (Py.plist [refract.Object
        (Py.plist [refract.Member (refract.String (Py.pstr "k"))
          (refract.String Py.pnone)
          (refract.Metadata Py.pnone (Py.pstr "d")) refract.Attributes])
        (refract.Metadata (refract.String (Py.pstr "a")) Py.pnone)
        refract.Attributes]))) :=
  ⟨fun _ _ _ => rfl, rfl⟩

/-- C6, counterexample: the claim says the builder fails with a SyntaxError
carrying the offending token when no production accepts a token.  On
`"+\n"` (a PLUS token where only a HEADER can start the document) the
pipeline completes without raising anything — the outcome is `ok none`, not
an error — because `p_error` only prints the token and returns. -/
theorem c6_counterexample : apyb_parse "+\n" = Except.ok none := rfl

/-- C6, amended: the builder raises no SyntaxError and does not abort: the
error hook `p_error` merely prints the offending token and returns `None`,
upon which the engine's panic-mode resynchronization discards the
offending token together with any partially parsed section and resumes
from the initial state.  The caller therefore receives `None` when nothing
after the errors forms a section (`"- x\n"`), but receives a document
assembled from a later section when one parses (`"+\n# a\n- b\n"` yields
the section `a` despite the rejected `+` line) — so no exception, no
immediate abort, and not even a guarantee of no partial document. -/
theorem c6_amended :
    (∀ p, p_error p = Py.pnone) ∧
    apyb_parse "- x\n" = Except.ok none ∧
    apyb_parse "+\n# a\n- b\n" =
      Except.ok (some (refract.Array (Py.plist [refract.Object
        (Py.plist [refract.Member (refract.String (Py.pstr "b"))
          (refract.String Py.pnone) Py.pnone refract.Attributes])
        (refract.Metadata (refract.String (Py.pstr "a")) Py.pnone)
        refract.Attributes]))) :=
  ⟨fun _ => rfl, rfl, rfl⟩

/-- C9: at any scanner state, if no lexer rule matches at the current
(non-empty) position, scanning fails immediately with the `t_error` raise,
whose payload carries the remaining input (beginning with the offending
character) and the position — and nothing is scanned past it: the error is
the final outcome, with no recovery. -/
theorem c9 :
    ∀ (fuel : Nat) (paren : Int) (als : Bool) (lineno pos : Nat) (c : Char)
      (cs : List Char),
      masterMatch (c :: cs) = none →
      lexAux (fuel + 1) paren als lineno pos (c :: cs) =
        Except.error ⟨String.mk (c :: cs), lineno, pos⟩ := by
  intro fuel paren als lineno pos c cs h
  simp only [lexAux, h]

/-- C9, witness: the carriage-return character matches no scanner rule, and
scanning `"\r"` fails with the error carrying that character at line 1,
position 0. -/
theorem c9_witness :
    lexAux 1 0 true 1 0 ['\x0d'] =
      Except.error ⟨String.mk ['\x0d'], 1, 0⟩ :=
  c9 0 0 true 1 0 '\x0d' [] (by decide)

/-- C10: every header-section root element the builder constructs carries
the raw matched name text as its metadata id — trailing whitespace before
the type annotation or end of line included — while member keys are
stripped of surrounding whitespace.  Stated for the three with-items
productions of `p_header_object` and the key of `p_object_line`, plus a
whole-pipeline instance where the header id keeps its trailing space
(`"ab "`) and the member key is stripped (`"cd"` from `"cd "`). -/
theorem c10 :
    (∀ (hv : Py) (name : String) (td : Py) (nlv : String) (items : Py),
      metaIdOf (p_header_object [hv, Py.pstr name, td, Py.pstr nlv, items]) =
        refract.String (Py.pstr name)) ∧
    (∀ (hv : Py) (name nlv : String) (items : Py),
      metaIdOf (p_header_object [hv, Py.pstr name, Py.pstr nlv, items]) =
        refract.String (Py.pstr name)) ∧
    (∀ (hv : Py) (name : String) (td : Py) (nlv : String) (d : Py)
        (nlv2 : String) (items : Py),
      metaIdOf (p_header_object
          [hv, Py.pstr name, td, Py.pstr nlv, d, Py.pstr nlv2, items]) =
        refract.String (Py.pstr name)) ∧
    (∀ (bv : Py) (name : String),
      memberKeyOf (p_object_line [bv, Py.pstr name]) =
        refract.String (Py.pstr (pyStrip name))) ∧
    pyStrip "ab " ≠ "ab " ∧
    apyb_parse "# ab \n- cd \n" =
      Except.ok (some (refract.Array (Py.plist [refract.Object
        (Py.plist [refract.Member (refract.String (Py.pstr "cd"))
          (refract.String Py.pnone) Py.pnone refract.Attributes])
        (refract.Metadata (refract.String (Py.pstr "ab ")) Py.pnone)
        refract.Attributes]))) :=
  ⟨fun _ _ _ _ _ => rfl, fun _ _ _ _ => rfl, fun _ _ _ _ _ _ _ => rfl,
    fun _ _ => rfl, by decide, rfl⟩

/-- C7: on the dedent path of the indentation filter — the first real token
of a line at a depth smaller than the top of the levels stack — the run
fails with `IndentationError("inconsistent indentation")` whenever the new
depth equals no level on the stack (in particular, no previously pushed
level, since the stack holds only pushed levels and the base); and a run
that succeeds from such a state can only do so when the new depth exactly
matches some level already on the stack. -/
theorem c7 :
    (∀ (levels : List Nat) (depth lastLn lastPos : Nat) (t : LexToken)
        (ts : List LexToken),
      t.type ≠ "WS" → t.type ≠ "NEWLINE" → t.atLineStart = true →
      depth < levels.getLastD 0 → (∀ l ∈ levels, l ≠ depth) →
      indentation_filter_aux levels depth lastLn lastPos (t :: ts) =
        Except.error IndErr.inconsistentIndentation) ∧
    (∀ (levels : List Nat) (depth lastLn lastPos : Nat) (t : LexToken)
        (ts : List LexToken) (r : List LexToken × List Nat),
      t.type ≠ "WS" → t.type ≠ "NEWLINE" → t.atLineStart = true →
      depth < levels.getLastD 0 →
      indentation_filter_aux levels depth lastLn lastPos (t :: ts) =
        Except.ok r →
      depth ∈ levels) := by
  constructor
  · intro levels depth lastLn lastPos t ts hws hnl hals hlt habs
    have hidx : levels.findIdx (fun l => l == depth) = levels.length :=
      List.findIdx_eq_length.mpr (by
        intro x hx
        simpa using habs x hx)
    simp only [indentation_filter_aux]
    rw [if_neg hws, if_neg hnl, if_pos hals, if_neg (by omega),
      if_neg (by omega)]
    simp [hidx]
  · intro levels depth lastLn lastPos t ts r hws hnl hals hlt h
    simp only [indentation_filter_aux] at h
    rw [if_neg hws, if_neg hnl, if_pos hals, if_neg (by omega),
      if_neg (by omega)] at h
    by_cases hidx : levels.findIdx (fun l => l == depth) < levels.length
    · obtain ⟨x, hx, hxd⟩ := List.findIdx_lt_length.mp hidx
      exact (show x = depth by simpa using hxd) ▸ hx
    · simp [hidx] at h

/-- C7, witness: with the stack `[0, 4]`, a line-start token at depth 2
(never pushed) raises the inconsistent-indentation error, while with the
stack `[0, 2, 4]` a successful dedent run to depth 2 lands on a level that
is on the stack. -/
theorem c7_witness :
    indentation_filter_aux [0, 4] 2 1 0
        [⟨"TEXT", Py.pstr "x", 2, 6, true⟩] =
      Except.error IndErr.inconsistentIndentation ∧
    2 ∈ ([0, 2, 4] : List Nat) :=
  ⟨c7.1 [0, 4] 2 1 0 ⟨"TEXT", Py.pstr "x", 2, 6, true⟩ []
      (by decide) (by decide) rfl (by decide) (by decide),
    c7.2 [0, 2, 4] 2 1 0 ⟨"TEXT", Py.pstr "x", 2, 6, true⟩ []
      ([DEDENT 2 4, ⟨"TEXT", Py.pstr "x", 2, 6, true⟩, DEDENT 2 6], [0])
      (by decide) (by decide) rfl (by decide) rfl⟩

/-- Whichever rule of the master alternation matched, the resulting token
type is one of the rule names. -/
theorem tryRules_name :
    ∀ (rs : List (String × (List Char → Option Nat))) (cs : List Char)
      (ty : String) (n : Nat),
      tryRules rs cs = some (ty, n) → ty ∈ rs.map Prod.fst := by
  intro rs
  induction rs with
  | nil => intro cs ty n h; simp [tryRules] at h
  | cons r rs ih =>
    intro cs ty n h
    obtain ⟨ty0, f⟩ := r
    simp only [tryRules] at h
    rcases hf : f cs with _ | m <;> simp only [hf] at h
    · exact List.mem_cons_of_mem _ (ih cs ty n h)
    · simp at h
      obtain ⟨rfl, rfl⟩ := h
      simp

/-- The scanner never produces a token typed INDENT or DEDENT: those types
are synthesized only by the indentation filter. -/
theorem lexAux_types :
    ∀ (fuel : Nat) (paren : Int) (als : Bool) (lineno pos : Nat)
      (cs : List Char) (toks : List LexToken),
      lexAux fuel paren als lineno pos cs = Except.ok toks →
      ∀ t ∈ toks, t.type ≠ "INDENT" ∧ t.type ≠ "DEDENT" := by
  intro fuel
  induction fuel with
  | zero =>
    intro paren als lineno pos cs toks h
    simp [lexAux] at h
  | succ fuel ih =>
    intro paren als lineno pos cs toks h
    simp only [lexAux] at h
    rcases hm : masterMatch cs with _ | ⟨ty, n⟩ <;> simp only [hm] at h
    · rcases cs with _ | ⟨c, cs⟩ <;> simp at h
      subst h
      intro t ht
      simp at ht
    · have hname : ty ∈ lexRules.map Prod.fst := tryRules_name _ _ _ _ hm
      by_cases hws : ty = "WS"
      · rw [if_pos hws] at h
        by_cases hk : (als && decide (paren = 0)) = true
        · rw [if_pos hk] at h
          rcases hr : lexAux fuel paren true lineno (pos + n) (cs.drop n)
            with e | l <;> rw [hr] at h <;> simp at h
          subst h
          intro t ht
          rcases List.mem_cons.mp ht with rfl | ht
          · exact ⟨by simp, by simp⟩
          · exact ih _ _ _ _ _ _ hr t ht
        · rw [if_neg hk] at h
          exact ih _ _ _ _ _ _ h
      · rw [if_neg hws] at h
        by_cases hnl : ty = "NEWLINE"
        · rw [if_pos hnl] at h
          by_cases hk : paren = 0
          · rw [if_pos hk] at h
            rcases hr : lexAux fuel paren true (lineno + n) (pos + n)
              (cs.drop n) with e | l <;> rw [hr] at h <;> simp at h
            subst h
            intro t ht
            rcases List.mem_cons.mp ht with rfl | ht
            · exact ⟨by simp, by simp⟩
            · exact ih _ _ _ _ _ _ hr t ht
          · rw [if_neg hk] at h
            exact ih _ _ _ _ _ _ h
        · rw [if_neg hnl] at h
          rcases hr : lexAux fuel
              (if ty = "LPAR" || ty = "LBRAC" then paren + 1
                else if ty = "RPAR" || ty = "RBRAC" then paren - 1
                else paren) false lineno (pos + n) (cs.drop n)
            with e | l <;> rw [hr] at h <;> simp at h
          subst h
          intro t ht
          rcases List.mem_cons.mp ht with rfl | ht
          · constructor <;> rintro rfl <;> revert hname <;> decide
          · exact ih _ _ _ _ _ _ hr t ht

/-- Counting a token type distributes over cons. -/
theorem countType_cons (ty : String) (t : LexToken) (l : List LexToken) :
    countType ty (t :: l) =
      (if t.type == ty then 1 else 0) + countType ty l := by
  cases h : (t.type == ty) <;>
    simp [countType, List.filter_cons, h, Nat.add_comm]

/-- A token of a different type does not change the count. -/
theorem countType_cons_of_ne {ty : String} {t : LexToken}
    (h : t.type ≠ ty) (l : List LexToken) :
    countType ty (t :: l) = countType ty l := by
  rw [countType_cons]
  have hb : (t.type == ty) = false := by simpa using h
  simp [hb]

/-- Counting a token type distributes over append. -/
theorem countType_append (ty : String) (l1 l2 : List LexToken) :
    countType ty (l1 ++ l2) = countType ty l1 + countType ty l2 := by
  simp [countType, List.filter_append]

/-- Counting a token type on a replicated token. -/
theorem countType_replicate (ty : String) (t : LexToken) (n : Nat) :
    countType ty (List.replicate n t) = if t.type == ty then n else 0 := by
  induction n with
  | zero => cases h : (t.type == ty) <;> simp [countType, h]
  | succ n ih =>
    rw [List.replicate_succ, countType_cons, ih]
    cases h : (t.type == ty) <;> simp [h]
    omega

/-- The balance invariant of the indentation filter: a run from a non-empty
levels stack over a stream free of INDENT/DEDENT tokens (as the scanner
produces) emits exactly `levels.length - 1` more DEDENTs than INDENTs —
the DEDENTs that close the levels above the base — and ends with the stack
cut down to its bottom entry, which is never popped along the way. -/
theorem indentation_filter_aux_spec :
    ∀ (ts : List LexToken) (levels : List Nat) (depth lastLn lastPos : Nat)
      (out : List LexToken) (final : List Nat),
      levels ≠ [] →
      (∀ t ∈ ts, t.type ≠ "INDENT" ∧ t.type ≠ "DEDENT") →
      indentation_filter_aux levels depth lastLn lastPos ts =
        Except.ok (out, final) →
      countType "INDENT" out + levels.length =
        countType "DEDENT" out + 1 ∧ final = levels.take 1 := by
  intro ts
  induction ts with
  | nil =>
    intro levels depth lastLn lastPos out final hne hts h
    simp only [indentation_filter_aux] at h
    simp at h
    obtain ⟨h1, h2⟩ := h
    subst h1
    subst h2
    refine ⟨?_, rfl⟩
    rw [countType_replicate, countType_replicate]
    have hpos : 0 < levels.length := List.length_pos.mpr hne
    simp [DEDENT]
    omega
  | cons t ts ih =>
    intro levels depth lastLn lastPos out final hne hts h
    have hts' : ∀ x ∈ ts, x.type ≠ "INDENT" ∧ x.type ≠ "DEDENT" :=
      fun x hx => hts x (List.mem_cons_of_mem _ hx)
    have htI : t.type ≠ "INDENT" := (hts t (List.mem_cons_self _ _)).1
    have htD : t.type ≠ "DEDENT" := (hts t (List.mem_cons_self _ _)).2
    simp only [indentation_filter_aux] at h
    by_cases hws : t.type = "WS"
    · rw [if_pos hws] at h
      exact ih levels _ t.lineno t.lexpos out final hne hts' h
    · rw [if_neg hws] at h
      by_cases hnl : t.type = "NEWLINE"
      · rw [if_pos hnl] at h
        rcases hr : indentation_filter_aux levels 0 t.lineno t.lexpos ts with
          e | ⟨out', final'⟩ <;> rw [hr] at h <;> simp at h
        obtain ⟨h1, h2⟩ := h
        subst h1
        subst h2
        obtain ⟨ihc, ihf⟩ := ih levels 0 t.lineno t.lexpos out' final' hne
          hts' hr
        refine ⟨?_, ihf⟩
        rw [countType_cons_of_ne htI, countType_cons_of_ne htD]
        exact ihc
      · rw [if_neg hnl] at h
        by_cases hals : t.atLineStart = true
        · rw [if_pos hals] at h
          by_cases heq : depth = levels.getLastD 0
          · rw [if_pos heq] at h
            rcases hr : indentation_filter_aux levels depth t.lineno t.lexpos
              ts with e | ⟨out', final'⟩ <;> rw [hr] at h <;> simp at h
            obtain ⟨h1, h2⟩ := h
            subst h1
            subst h2
            obtain ⟨ihc, ihf⟩ := ih levels depth t.lineno t.lexpos out' final'
              hne hts' hr
            refine ⟨?_, ihf⟩
            rw [countType_cons_of_ne htI, countType_cons_of_ne htD]
            exact ihc
          · rw [if_neg heq] at h
            by_cases hgt : depth > levels.getLastD 0
            · rw [if_pos hgt] at h
              rcases hr : indentation_filter_aux (levels ++ [depth]) depth
                t.lineno t.lexpos ts with e | ⟨out', final'⟩ <;> rw [hr] at h
                <;> simp at h
              obtain ⟨h1, h2⟩ := h
              subst h1
              subst h2
              have hne' : levels ++ [depth] ≠ [] := by simp
              obtain ⟨ihc, ihf⟩ := ih (levels ++ [depth]) depth t.lineno
                t.lexpos out' final' hne' hts' hr
              constructor
              · have e1 : countType "INDENT"
                    (INDENT t.lineno (t.lexpos - depth) :: t :: out') =
                    1 + countType "INDENT" out' := by
                  rw [countType_cons, countType_cons_of_ne htI]
                  simp [INDENT]
                have e2 : countType "DEDENT"
                    (INDENT t.lineno (t.lexpos - depth) :: t :: out') =
                    countType "DEDENT" out' := by
                  rw [countType_cons_of_ne (by simp [INDENT]),
                    countType_cons_of_ne htD]
                rw [e1, e2]
                simp only [List.length_append, List.length_cons,
                  List.length_nil] at ihc
                omega
              · rw [ihf]
                cases levels with
                | nil => exact absurd rfl hne
                | cons a l => simp
            · rw [if_neg hgt] at h
              by_cases hidx :
                  levels.findIdx (fun l => l == depth) < levels.length
              · rw [if_pos hidx] at h
                rcases hr : indentation_filter_aux
                    (levels.take (levels.findIdx (fun l => l == depth) + 1))
                    depth t.lineno t.lexpos ts with e | ⟨out', final'⟩ <;>
                  rw [hr] at h <;> simp at h
                obtain ⟨h1, h2⟩ := h
                subst h1
                subst h2
                have hne' : levels.take
                    (levels.findIdx (fun l => l == depth) + 1) ≠ [] := by
                  cases levels with
                  | nil => exact absurd rfl hne
                  | cons a l => simp [List.take]
                obtain ⟨ihc, ihf⟩ := ih _ depth t.lineno t.lexpos out' final'
                  hne' hts' hr
                have hlen : (levels.take
                    (levels.findIdx (fun l => l == depth) + 1)).length =
                    levels.findIdx (fun l => l == depth) + 1 := by
                  rw [List.length_take]
                  omega
                constructor
                · rw [countType_append, countType_append,
                    countType_replicate, countType_replicate,
                    countType_cons_of_ne htI, countType_cons_of_ne htD]
                  rw [hlen] at ihc
                  simp [DEDENT]
                  omega
                · rw [ihf, List.take_take,
                    show min 1 (levels.findIdx (fun l => l == depth) + 1) = 1
                      by omega]
              · rw [if_neg hidx] at h
                simp at h
        · rw [if_neg hals] at h
          rcases hr : indentation_filter_aux levels depth t.lineno t.lexpos
            ts with e | ⟨out', final'⟩ <;> rw [hr] at h <;> simp at h
          obtain ⟨h1, h2⟩ := h
          subst h1
          subst h2
          obtain ⟨ihc, ihf⟩ := ih levels depth t.lineno t.lexpos out' final'
            hne hts' hr
          refine ⟨?_, ihf⟩
          rw [countType_cons_of_ne htI, countType_cons_of_ne htD]
          exact ihc

/-- C8: for every scanned document on which the indentation filter runs to
completion, the filter emits as many INDENT tokens as DEDENT tokens, and
the levels stack — whose base entry 0 is never popped during the run — is
exactly `[0]` once the closing DEDENTs have been emitted at end of input. -/
theorem c8 :
    ∀ (s : String) (ts out : List LexToken) (final : List Nat),
      tokenize s = Except.ok ts →
      indentation_filter_aux [0] 0 1 0 ts = Except.ok (out, final) →
      countType "INDENT" out = countType "DEDENT" out ∧ final = [0] := by
  intro s ts out final hlex hind
  obtain ⟨hc, hf⟩ := indentation_filter_aux_spec ts [0] 0 1 0 out final
    (by simp) (lexAux_types _ _ _ _ _ _ _ hlex) hind
  refine ⟨by simpa using hc, by simpa using hf⟩

/-- C8, witness: on the document `"a\n  b\n"` the filter emits one INDENT
and one DEDENT, and returns its stack to `[0]`. -/
theorem c8_witness :
    countType "INDENT" c8demoOut = countType "DEDENT" c8demoOut ∧
    ([0] : List Nat) = [0] :=
  c8 "a\n  b\n" c8demoToks c8demoOut [0] rfl rfl

end Apyb
